import Mathlib

/-!
Shallow embedding of `src/codingbat.py` (a Java-to-Python CodingBat stub
generator) over `List Char` strings.  Python strings become `List Char`,
index arithmetic is kept explicit, and operations that can raise
(`str.index`, an unmatched `re.search`, a missing dict key mid-expression)
return `Option` / `Except`.  Every definition mirrors the corresponding
Python function; external I/O (HTTP fetch, HTML parsing, the filesystem)
is modelled by explicit parameters and effect lists.
-/

namespace Codingbat

/-- Characters accepted by the Python regex class `\w` (ASCII model). -/
def wordChar (c : Char) : Bool := c.isAlphanum || c = '_'

/-- Python `s.index(c)` restricted to a single character: index of the first
occurrence, `none` when absent (Python raises `ValueError`). -/
def idxOf (c : Char) : List Char → Option Nat
  | [] => none
  | x :: xs => if x = c then some 0 else (idxOf c xs).map (· + 1)

/-- Python slice `s[a:b]` (with `0 ≤ a ≤ b` clamped to the string length). -/
def slice (s : List Char) (a b : Nat) : List Char := (s.drop a).take (b - a)

/-- Python `s.startswith(pat)` on character lists. -/
def startsWithCh : List Char → List Char → Bool
  | [], _ => true
  | _ :: _, [] => false
  | a :: as, b :: bs => a == b && startsWithCh as bs

/-- Python `s.endswith(pat)` on character lists. -/
def endsWithCh (pat s : List Char) : Bool := startsWithCh pat.reverse s.reverse

/-- Python `pat in s` (substring test) on character lists. -/
def containsSub (pat : List Char) : List Char → Bool
  | [] => pat.isEmpty
  | c :: rest => startsWithCh pat (c :: rest) || containsSub pat rest

/-- Python `s.strip()`: drop whitespace from both ends. -/
def pyStrip (s : List Char) : List Char :=
  ((s.dropWhile Char.isWhitespace).reverse.dropWhile Char.isWhitespace).reverse

/-- Python `s.split(', ')`: split on the exact two-character separator,
leftmost-first; splitting the empty string yields `[[]]` as in Python. -/
def splitCS : List Char → List (List Char)
  | [] => [[]]
  | ',' :: ' ' :: rest => [] :: splitCS rest
  | c :: rest =>
    match splitCS rest with
    | [] => [[c]]
    | h :: t => (c :: h) :: t

/-- Python `', '.join(xs)`. -/
def joinCS : List (List Char) → List Char
  | [] => []
  | [x] => x
  | x :: y :: t => x ++ ',' :: ' ' :: joinCS (y :: t)

/-- The `general_conversion` dict literal of `Converter.type_conversion`
(`src/codingbat.py` lines 26-32). -/
def general_conversion (t : List Char) : Option (List Char) :=
  if t = ("String").data then some ("str").data
  else if t = ("Integer").data then some ("int").data
  else if t = ("Map").data then some ("Dict").data
  else if t = ("boolean").data then some ("bool").data
  else if t = ("Boolean").data then some ("bool").data
  else none

/-- The idiom `general_conversion[i] if i in general_conversion else i`. -/
def lookupOr (t : List Char) : List Char := (general_conversion t).getD t

/-- `Converter.type_conversion` (`src/codingbat.py` lines 24-47).  `none`
models an uncaught `ValueError` from `str.index` (possible only in the
`Map` branch; the `List` branch catches it and returns `'list'`). -/
def type_conversion (vartype : List Char) : Option (List Char) :=
  if startsWithCh (("Map").data) vartype then
    match idxOf '<' vartype, idxOf '>' vartype with
    | some i, some j =>
        some (("Dict[").data ++ joinCS ((splitCS (slice vartype (i + 1) j)).map lookupOr)
          ++ [']'])
    | _, _ => none
  else if startsWithCh (("List").data) vartype then
    match idxOf '<' vartype, idxOf '>' vartype with
    | some i, some j => some (("List[").data ++ lookupOr (slice vartype (i + 1) j) ++ [']'])
    | _, _ => some (("list").data)
  else if endsWithCh (("[]").data) vartype then
    some (("List[").data ++ lookupOr (vartype.dropLast.dropLast) ++ [']'])
  else some (lookupOr vartype)

/-- The maximal all-`\w` suffix of a string (the greedy `(\w+)$` group). -/
def wordSuffix (s : List Char) : List Char := (s.reverse.takeWhile wordChar).reverse

/-- Index just past the last `'\n'` of `s`, or `0` when there is none:
where the `.` of a Python regex can start matching before position `k`. -/
def afterLastNl (s : List Char) : Nat :=
  match idxOf '\n' s.reverse with
  | none => 0
  | some r => s.length - r

/-- `re.search(r'(.+) (\w+)$', param).groups()`: the greedy match splits at
the last space, provided the suffix after it is a nonempty `\w+` run and a
nonempty newline-free `.+` group precedes the space.  A trailing newline is
skipped first, as Python `$` matches before a final `'\n'`. -/
def reSplitTypeName (p : List Char) : Option (List Char × List Char) :=
  let body := if p.getLast? = some '\n' then p.dropLast else p
  let nm := wordSuffix body
  if nm.isEmpty then none
  else
    let k := body.length - nm.length
    if k = 0 then none
    else if (body.drop (k - 1)).head? = some ' ' then
      let tstart := afterLastNl (body.take (k - 1))
      if tstart < k - 1 then some (slice body tstart (k - 1), nm) else none
    else none

/-- The reserved-name renames of `Converter.handle_params`
(`src/codingbat.py` lines 64-69). -/
def renameParam (n : List Char) : List Char :=
  if n = ("str").data then ("string").data
  else if n = ("len").data then ("length").data
  else if n = ("map").data then ("mapping").data
  else n

/-- The `for idx, i in enumerate(paramstr)` loop of `Converter.handle_params`
(`src/codingbat.py` lines 56-71).  `stream` is `s.drop idx`; `rest = []`
is Python's `idx == len(paramstr) - 1`.  `none` models an uncaught
exception from the regex or from `type_conversion`. -/
def hpAux (s : List Char) :
    List Char → Nat → Nat → Nat → Nat → List (List Char) → Option (List (List Char))
  | [], _, _, _, _, acc => some acc
  | c :: rest, idx, splitIdx, lcar, rcar, acc =>
    if c = '<' then hpAux s rest (idx + 1) splitIdx (lcar + 1) rcar acc
    else if c = '>' then hpAux s rest (idx + 1) splitIdx lcar (rcar + 1) acc
    else if (c = ',' ∧ lcar = rcar) ∨ rest = [] then
      match reSplitTypeName (slice s splitIdx (idx + if rest = [] then 1 else 0)) with
      | none => none
      | some (pt, pn) =>
        match type_conversion pt with
        | none => none
        | some ct =>
          hpAux s rest (idx + 1) (idx + 2) lcar rcar
            (acc ++ [renameParam pn ++ ':' :: ' ' :: ct])
    else hpAux s rest (idx + 1) splitIdx lcar rcar acc

/-- `Converter.handle_params` (`src/codingbat.py` lines 49-72). -/
def handle_params (s : List Char) : Option (List (List Char)) := hpAux s s 0 0 0 0 []

/-- `re.search(r'(\w+)\(', s)`: leftmost position whose maximal `\w+` run is
nonempty and immediately followed by `'('`; returns the match start and the
captured name.  `p` tracks the index of the head of the stream. -/
def snpAux : List Char → Nat → Option (Nat × List Char)
  | [], _ => none
  | c :: rest, p =>
    let run := List.takeWhile wordChar (c :: rest)
    if run.isEmpty then snpAux rest (p + 1)
    else if ((c :: rest).drop run.length).head? = some '(' then some (p, run)
    else snpAux rest (p + 1)

/-- `Converter.__init__` (`src/codingbat.py` lines 21-22):
`dec[dec.index(' ') + 1 : dec.index(')') + 1]`. -/
def converter_init (dec : List Char) : Option (List Char) :=
  match idxOf ' ' dec, idxOf ')' dec with
  | some i, some j => some (slice dec (i + 1) (j + 1))
  | _, _ => none

/-- `Converter.convert` (`src/codingbat.py` lines 74-81), composed with
`Converter.__init__`: from the raw declaration to the rendered stub. -/
def convert (dec : List Char) : Option (List Char) :=
  match converter_init dec with
  | none => none
  | some d =>
    match snpAux d 0 with
    | none => none
    | some (nstart, nm) =>
      match type_conversion (pyStrip (d.take nstart)) with
      | none => none
      | some rettype =>
        match idxOf '(' d, idxOf ')' d with
        | some i, some j =>
          match handle_params (slice d (i + 1) j) with
          | none => none
          | some ps =>
            some (("def ").data ++ nm ++ '(' :: joinCS ps ++ (") -> ").data
              ++ rettype ++ (":\n    pass").data)
        | _, _ => none

/-- The `re.sub(r'→|true|false', ...)` substitution of `Problem.make_asserts`
(`src/codingbat.py` lines 94-99): leftmost, non-overlapping replacement of
the arrow and the Java boolean literal spellings. -/
def convertAssert : List Char → List Char
  | [] => []
  | '→' :: r => '=' :: '=' :: convertAssert r
  | 't' :: 'r' :: 'u' :: 'e' :: r => 'T' :: 'r' :: 'u' :: 'e' :: convertAssert r
  | 'f' :: 'a' :: 'l' :: 's' :: 'e' :: r => 'F' :: 'a' :: 'l' :: 's' :: 'e' :: convertAssert r
  | c :: r => c :: convertAssert r

/-- `Problem.make_asserts` (`src/codingbat.py` lines 91-101). -/
def make_asserts (xs : List (List Char)) : List Char :=
  let converted := xs.map convertAssert
  let joined := (converted.map (fun i => ("\n    assert ").data ++ i)).flatten
  ("if __name__ == '__main__':").data ++ joined

/-- The docstring-wrapping `while` loop of `Problem._process`
(`src/codingbat.py` lines 115-125).  `stream` is `s.drop idx2`; `rest = []`
is Python's `idx2 == len(docstring) - 1`. -/
def wrapAux (s : List Char) : List Char → Nat → Nat → Nat → List (List Char)
  | [], _, _, _ => []
  | c :: rest, idx1, idx2, lc =>
    if (81 < lc ∧ c = ' ') ∨ rest = [] then
      slice s idx1 (idx2 + if rest = [] then 1 else 0) :: wrapAux s rest (idx2 + 1) (idx2 + 1) 1
    else wrapAux s rest idx1 (idx2 + 1) (lc + 1)

/-- The wrapped docstring lines (`docstringwrap` of `Problem._process`). -/
def docWrap (s : List Char) : List (List Char) := wrapAux s s 0 0 0

/-- Lines re-joined with the single space each mid-text cut consumed. -/
def joinWithSpace : List (List Char) → List Char
  | [] => []
  | [x] => x
  | x :: y :: t => x ++ ' ' :: joinWithSpace (y :: t)

/-- The import-building block of `Problem._process`
(`src/codingbat.py` lines 128-136). -/
def make_imports (decstr : List Char) : List Char :=
  let imports :=
    (if containsSub (("List").data) decstr then [("List").data] else []) ++
      (if containsSub (("Dict").data) decstr then [("Dict").data] else [])
  if imports.isEmpty then []
  else ("from typing import ").data ++ joinCS imports ++ ['\n']

/-- The final assembly `f-string` of `Problem._process`
(`src/codingbat.py` line 137):
`f'(docstring)\n(imports)\n\n(decstr)\n\n\n(asserts)\n'`. -/
def assemble_text (docstring decstr asserts : List Char) : List Char :=
  docstring ++ '\n' :: make_imports decstr ++ ("\n\n").data ++ decstr
    ++ ("\n\n\n").data ++ asserts ++ ['\n']

/-- The mutable fields of a `Problem` (`src/codingbat.py` lines 86-89):
`name` and `text` start as `None`. -/
structure Problem where
  url : List Char
  name : Option (List Char)
  text : Option (List Char)
deriving DecidableEq

/-- An observable side effect of processing a problem. -/
inductive Effect
  | fetch (url : List Char)
deriving DecidableEq

/-- `Problem.process` (`src/codingbat.py` lines 148-156).  The HTTP GET is
the `fetch` parameter and the body of `Problem._process` (HTML parsing) is
the `parse` parameter; the returned list records the fetches performed. -/
def Problem.process (parse : List Char → Problem → Problem)
    (fetch : List Char → List Char) (p : Problem) : Problem × List Effect :=
  match p.text with
  | some _ => (p, [])
  | none => (parse (fetch p.url) p, [Effect.fetch p.url])

/-- `Problem.async_process` (`src/codingbat.py` lines 140-146): the same
guard and body shape as `Problem.process`, with the session GET as `fetch`. -/
def Problem.async_process (parse : List Char → Problem → Problem)
    (fetch : List Char → List Char) (p : Problem) : Problem × List Effect :=
  match p.text with
  | some _ => (p, [])
  | none => (parse (fetch p.url) p, [Effect.fetch p.url])

/-- A `CategoryPage` (`src/codingbat.py` lines 158-164): `processed` starts
`False` and is set once `process` finishes. -/
structure CategoryPage where
  url : List Char
  name : List Char
  problems : List Problem
  processed : Bool
deriving DecidableEq

/-- The exceptions `CategoryPage.write` can raise: `ProcessingError`
(`src/codingbat.py` lines 12-15) when the category is unprocessed, and the
`TypeError` of `f.write(None)` when a problem's text was never set. -/
inductive WriteError
  | processingError (msg : List Char)
  | typeError
deriving DecidableEq

/-- One iteration of the write loop: the path
`os.path.join('.', name, f'(prob.name).py')` and the content written. -/
def writeProblem (catName : List Char) (p : Problem) :
    Except WriteError (List Char × List Char) :=
  match p.text with
  | some t =>
    Except.ok (("./").data ++ catName ++ '/' :: (p.name.getD (("None").data))
      ++ (".py").data, t)
  | none => Except.error WriteError.typeError

/-- The `for prob in self.problems` write loop, stopping at the first
exception as Python does. -/
def writeAll (catName : List Char) : List Problem →
    Except WriteError (List (List Char × List Char))
  | [] => Except.ok []
  | p :: ps =>
    match writeProblem catName p with
    | Except.error e => Except.error e
    | Except.ok w =>
      match writeAll catName ps with
      | Except.error e => Except.error e
      | Except.ok ws => Except.ok (w :: ws)

/-- `CategoryPage.write` (`src/codingbat.py` lines 177-187): raises
`ProcessingError` before touching any file when `processed` is false,
otherwise returns the list of file writes performed. -/
def CategoryPage.write (cp : CategoryPage) :
    Except WriteError (List (List Char × List Char)) :=
  if cp.processed then writeAll cp.name cp.problems
  else Except.error (WriteError.processingError
    (cp.name ++ (" has not been processed").data))

/-- C2: `type_conversion` satisfies the round-trip table:
`String ↦ str`, `boolean ↦ bool`, `int[] ↦ List[int]`,
`Map<String, Integer> ↦ Dict[str, int]`, `List<String> ↦ List[str]` and
bare `List ↦ list` (each returned without raising, hence `some`). -/
theorem type_conversion_round_trip_table :
    type_conversion (("String").data) = some (("str").data) ∧
    type_conversion (("boolean").data) = some (("bool").data) ∧
    type_conversion (("int[]").data) = some (("List[int]").data) ∧
    type_conversion (("Map<String, Integer>").data) = some (("Dict[str, int]").data) ∧
    type_conversion (("List<String>").data) = some (("List[str]").data) ∧
    type_conversion (("List").data) = some (("list").data) := by
  decide

/-- C3: `handle_params` on `"Map<String, Integer> map, int len"` yields
exactly the two parameters `"mapping: Dict[str, int]"` and `"length: int"`
— the comma inside `Map<...>` creates no third parameter, and the reserved
names `map` and `len` are renamed; the `str ↦ string` rename is exercised
by the second conjunct, and `renameParam` is exactly the three-entry
rename table. -/
theorem handle_params_bracketed_comma_and_renames :
    handle_params (("Map<String, Integer> map, int len").data) =
      some [("mapping: Dict[str, int]").data, ("length: int").data] ∧
    handle_params (("String str").data) = some [("string: str").data] ∧
    renameParam (("str").data) = ("string").data ∧
    renameParam (("len").data) = ("length").data ∧
    renameParam (("map").data) = ("mapping").data := by
  decide

/-- C5: `make_asserts` applies only the textual substitutions
`→ ↦ ==`, `true ↦ True`, `false ↦ False` to each example and emits one
assert per example, in input order, under the `if __name__ == '__main__':`
guard; the second conjunct checks the two-example instance of the claim. -/
theorem make_asserts_substitution_and_order :
    (∀ xs : List (List Char),
      make_asserts xs = ("if __name__ == '__main__':").data ++
        (xs.map (fun a => ("\n    assert ").data ++ convertAssert a)).flatten) ∧
    make_asserts [("max(1, 2) → 2").data, ("isOdd(3) → true").data] =
      ("if __name__ == '__main__':\n    assert max(1, 2) == 2\n    assert isOdd(3) == True").data := by
  constructor
  · intro xs
    simp only [make_asserts, List.map_map]
    rfl
  · decide

/-- C8: zero-parameter and zero-example inputs are valid: `handle_params`
on the empty string returns the empty parameter list (and raises nothing),
and `make_asserts []` is exactly the guard line with no assert statements. -/
theorem empty_params_and_examples_ok :
    handle_params [] = some [] ∧
    make_asserts [] = ("if __name__ == '__main__':").data := by
  decide

/-- C1 counterexample: for the declaration `"int foo(int a)"` — which fits
the claimed RawDeclaration form (return type, a space, the name before the
first parenthesis) — `convert` renders an empty return annotation
(`"-> :"`), not the claimed `"-> int:"`, because `Converter.__init__`
already discarded the token `int` before the first space. -/
theorem convert_return_annotation_counterexample :
    convert (("int foo(int a)").data) =
      some (("def foo(a: int) -> :\n    pass").data) ∧
    convert (("int foo(int a)").data) ≠
      some (("def foo(a: int) -> int:\n    pass").data) := by
  decide

/-- C1 amended: `Converter.__init__` drops everything up to and including
the declaration's first space (the leading modifier token, e.g. `public`)
and keeps the text through the first `')'`; `convert` then takes everything
before the function name in that remainder as the raw return-type token,
maps it through `type_conversion` and renders it as the annotation.  So
`"public int foo(int a)"` gets annotation `int`, while for
`"int foo(int a)"` the token `int` is consumed as the dropped prefix and
the annotation is empty. -/
theorem convert_leading_token_dropped :
    convert (("public int foo(int a)").data) =
      some (("def foo(a: int) -> int:\n    pass").data) ∧
    convert (("int foo(int a)").data) =
      some (("def foo(a: int) -> :\n    pass").data) := by
  decide

/-- C7 counterexample: `type_conversion` is not total and not verbatim on
the claimed set: `"Maple"` is no `Map<K, V>` generic, no `List` form, has
no `[]` suffix and is absent from the table, yet the code raises
`ValueError` (`none`) instead of returning it verbatim, because the `Map`
branch is entered by the prefix test `startswith('Map')`; likewise
`"Listing"` enters the `List` branch and becomes `"list"`. -/
theorem type_conversion_total_counterexample :
    type_conversion (("Maple").data) = none ∧
    type_conversion (("Listing").data) = some (("list").data) ∧
    (("Listing").data ≠ ("list").data) := by
  decide

/-- C7 amended: the branch tests are prefix tests, so the verbatim
fall-through holds exactly for tokens that do not start with `Map`, do not
start with `List`, do not end with `[]` and are absent from the lookup
table: those are returned verbatim and raise nothing.  Tokens starting
with `Map` but lacking `<` or `>` raise `ValueError` instead
(see the counterexample), so no totality claim holds. -/
theorem type_conversion_fallthrough (t : List Char)
    (hm : startsWithCh (("Map").data) t = false)
    (hl : startsWithCh (("List").data) t = false)
    (ha : endsWithCh (("[]").data) t = false)
    (hg : general_conversion t = none) :
    type_conversion t = some t := by
  simp [type_conversion, hm, hl, ha, lookupOr, hg]

/-- Witness for the C7 amended theorem at the concrete token `"Foo"`. -/
theorem type_conversion_fallthrough_witness :
    type_conversion (("Foo").data) = some (("Foo").data) :=
  type_conversion_fallthrough (("Foo").data) (by decide) (by decide) (by decide) (by decide)

/-- C6 counterexample: with no typing import needed, the assembled artifact
separates the docstring block from the stub by two blank lines (three
newlines), not by the claimed single blank line; the first conjunct is the
actual artifact, the second refutes the claimed layout. -/
theorem assemble_text_single_blank_counterexample :
    assemble_text (("\"\"\"\nAdd.\n\"\"\"").data)
        (("def foo(a: int) -> int:\n    pass").data)
        (("if __name__ == '__main__':").data) =
      ("\"\"\"\nAdd.\n\"\"\"\n\n\ndef foo(a: int) -> int:\n    pass\n\n\nif __name__ == '__main__':\n").data ∧
    assemble_text (("\"\"\"\nAdd.\n\"\"\"").data)
        (("def foo(a: int) -> int:\n    pass").data)
        (("if __name__ == '__main__':").data) ≠
      ("\"\"\"\nAdd.\n\"\"\"\n\ndef foo(a: int) -> int:\n    pass\n\n\nif __name__ == '__main__':\n").data := by
  decide

/-- C6 amended: the artifact is laid out as the docstring block; then
an import line present iff the rendered signature contains `List` and/or
`Dict` (one combined line with `List` named before `Dict` when both are
present, none otherwise); then two blank separator lines; then the stub;
then two blank separator lines; then the assertion block; then a trailing
newline.  The four conjuncts exhibit the no-import, `List`-only,
`Dict`-only and combined cases. -/
theorem assemble_text_layout_amended :
    assemble_text (("\"\"\"\nAdd.\n\"\"\"").data)
        (("def foo(a: int) -> int:\n    pass").data)
        (("if __name__ == '__main__':").data) =
      ("\"\"\"\nAdd.\n\"\"\"\n\n\ndef foo(a: int) -> int:\n    pass\n\n\nif __name__ == '__main__':\n").data ∧
    assemble_text (("\"\"\"\nAdd.\n\"\"\"").data)
        (("def foo(xs: List[int]) -> int:\n    pass").data)
        (("if __name__ == '__main__':").data) =
      ("\"\"\"\nAdd.\n\"\"\"\nfrom typing import List\n\n\ndef foo(xs: List[int]) -> int:\n    pass\n\n\nif __name__ == '__main__':\n").data ∧
    assemble_text (("\"\"\"\nAdd.\n\"\"\"").data)
        (("def foo(m: Dict[str, int]) -> Dict[str, int]:\n    pass").data)
        (("if __name__ == '__main__':").data) =
      ("\"\"\"\nAdd.\n\"\"\"\nfrom typing import Dict\n\n\ndef foo(m: Dict[str, int]) -> Dict[str, int]:\n    pass\n\n\nif __name__ == '__main__':\n").data ∧
    assemble_text (("\"\"\"\nAdd.\n\"\"\"").data)
        (("def foo(xs: List[int]) -> Dict[str, int]:\n    pass").data)
        (("if __name__ == '__main__':").data) =
      ("\"\"\"\nAdd.\n\"\"\"\nfrom typing import List, Dict\n\n\ndef foo(xs: List[int]) -> Dict[str, int]:\n    pass\n\n\nif __name__ == '__main__':\n").data := by
  decide

/-- C10: when a `Problem`'s `text` is already set, both `process` and
`async_process` return immediately: no fetch is performed (empty effect
list) and the problem record is returned unchanged, whatever the fetch and
HTML-processing collaborators would do. -/
theorem process_skips_when_text_set (parse : List Char → Problem → Problem)
    (fetch : List Char → List Char) (p : Problem) (t : List Char)
    (h : p.text = some t) :
    Problem.process parse fetch p = (p, []) ∧
      Problem.async_process parse fetch p = (p, []) := by
  constructor <;> simp [Problem.process, Problem.async_process, h]

/-- Witness for C10 at a concrete already-processed problem. -/
theorem process_skips_when_text_set_witness :
    Problem.process (fun _ q => q) (fun u => u)
        ({ url := [], name := none, text := some [] } : Problem) =
      (({ url := [], name := none, text := some [] } : Problem), []) ∧
      Problem.async_process (fun _ q => q) (fun u => u)
          ({ url := [], name := none, text := some [] } : Problem) =
        (({ url := [], name := none, text := some [] } : Problem), []) :=
  process_skips_when_text_set (fun _ q => q) (fun u => u) _ [] rfl

theorem joinWithSpace_cons (x : List Char) (l : List (List Char)) (h : l ≠ []) :
    joinWithSpace (x :: l) = x ++ ' ' :: joinWithSpace l := by
  cases l with
  | nil => exact absurd rfl h
  | cons y t => rfl

theorem wrapAux_ne_nil (s : List Char) :
    ∀ (stream : List Char) (i1 i2 lc : Nat), stream ≠ [] →
      wrapAux s stream i1 i2 lc ≠ [] := by
  intro stream
  induction stream with
  | nil => intro i1 i2 lc h; exact absurd rfl h
  | cons c rest ih =>
    intro i1 i2 lc _
    by_cases hcond : (81 < lc ∧ c = ' ') ∨ rest = []
    · simp only [wrapAux, if_pos hcond]
      exact List.cons_ne_nil _ _
    · have hrest : rest ≠ [] := fun h => hcond (Or.inr h)
      simp only [wrapAux, if_neg hcond]
      exact ih i1 (i2 + 1) (lc + 1) hrest

theorem wrapAux_join (s : List Char) :
    ∀ (stream : List Char) (i1 i2 lc : Nat),
      stream = s.drop i2 → i1 ≤ i2 → stream ≠ [] →
      joinWithSpace (wrapAux s stream i1 i2 lc) = s.drop i1 := by
  intro stream
  induction stream with
  | nil => intro i1 i2 lc _ _ h; exact absurd rfl h
  | cons c rest ih =>
    intro i1 i2 lc hstream hle _
    have hdrop : s.drop i2 = c :: rest := hstream.symm
    have hi2 : i2 < s.length := by
      by_contra hh
      push_neg at hh
      rw [List.drop_eq_nil_iff.mpr hh] at hdrop
      exact List.noConfusion hdrop
    have hrest : rest = s.drop (i2 + 1) := by
      have ht := List.tail_drop s i2
      rw [hdrop, List.tail_cons] at ht
      exact ht
    by_cases hre : rest = []
    · subst hre
      have hlen : s.length = i2 + 1 := by
        have hl := List.length_drop i2 s
        rw [hdrop] at hl
        simp at hl
        omega
      simp only [wrapAux, or_true, if_true, joinWithSpace, slice]
      apply List.take_of_length_le
      rw [List.length_drop]
      omega
    · by_cases hcut : 81 < lc ∧ c = ' '
      · simp only [wrapAux, if_pos (Or.inl hcut), if_neg hre, Nat.add_zero]
        rw [joinWithSpace_cons _ _ (wrapAux_ne_nil s rest (i2 + 1) (i2 + 1) 1 hre)]
        rw [ih (i2 + 1) (i2 + 1) 1 hrest (Nat.le_refl _) hre]
        have key := List.take_append_drop (i2 - i1) (s.drop i1)
        rw [List.drop_drop] at key
        have hidx : i1 + (i2 - i1) = i2 := by omega
        rw [hidx] at key
        have hdrop2 : s.drop i2 = ' ' :: s.drop (i2 + 1) := by
          rw [hdrop, hcut.2, hrest]
        simp only [slice]
        rw [← hdrop2]
        exact key
      · have hcond : ¬((81 < lc ∧ c = ' ') ∨ rest = []) := by
          intro h
          cases h with
          | inl h => exact hcut h
          | inr h => exact hre h
        simp only [wrapAux, if_neg hcond]
        exact ih i1 (i2 + 1) (lc + 1) hrest (Nat.le_succ_of_le hle) hre

theorem wrapAux_mem_ne_nil (s : List Char) :
    ∀ (stream : List Char) (i1 i2 lc : Nat),
      stream = s.drop i2 → i1 ≤ i2 → lc ≤ i2 - i1 + 1 →
      ∀ l ∈ wrapAux s stream i1 i2 lc, l ≠ [] := by
  intro stream
  induction stream with
  | nil => intro i1 i2 lc _ _ _ l hl; simp [wrapAux] at hl
  | cons c rest ih =>
    intro i1 i2 lc hstream hle hlc l hl
    have hdrop : s.drop i2 = c :: rest := hstream.symm
    have hi2 : i2 < s.length := by
      by_contra hh
      push_neg at hh
      rw [List.drop_eq_nil_iff.mpr hh] at hdrop
      exact List.noConfusion hdrop
    have hrest : rest = s.drop (i2 + 1) := by
      have ht := List.tail_drop s i2
      rw [hdrop, List.tail_cons] at ht
      exact ht
    by_cases hre : rest = []
    · subst hre
      have hlen : s.length = i2 + 1 := by
        have hl2 := List.length_drop i2 s
        rw [hdrop] at hl2
        simp at hl2
        omega
      simp only [wrapAux, or_true, if_true, slice, List.mem_singleton] at hl
      intro hnil
      rw [hl] at hnil
      apply_fun List.length at hnil
      simp [List.length_take, List.length_drop] at hnil
      omega
    · by_cases hcut : 81 < lc ∧ c = ' '
      · simp only [wrapAux, if_pos (Or.inl hcut), if_neg hre, Nat.add_zero, slice,
          List.mem_cons] at hl
        cases hl with
        | inl hl =>
          intro hnil
          rw [hl] at hnil
          apply_fun List.length at hnil
          simp [List.length_take, List.length_drop] at hnil
          omega
        | inr hl =>
          exact ih (i2 + 1) (i2 + 1) 1 hrest (Nat.le_refl _) (by omega) l hl
      · have hcond : ¬((81 < lc ∧ c = ' ') ∨ rest = []) := by
          intro h
          cases h with
          | inl h => exact hcut h
          | inr h => exact hre h
        simp only [wrapAux, if_neg hcond] at hl
        exact ih i1 (i2 + 1) (lc + 1) hrest (Nat.le_succ_of_le hle) (by omega) l hl

/-- C4: the doc-wrapping loop is word-respecting — re-joining its output
lines with one space per cut reconstructs the input exactly (so every cut
consumed a single space of the input or was the forced cut at the end, and
no word, however long, is ever split across lines), and no output line is
the empty string (for empty input there are no lines at all). -/
theorem docWrap_word_respecting (s : List Char) :
    joinWithSpace (docWrap s) = s ∧ ∀ l ∈ docWrap s, l ≠ [] := by
  cases s with
  | nil =>
    refine ⟨rfl, ?_⟩
    intro l hl
    simp [docWrap, wrapAux] at hl
  | cons a t =>
    constructor
    · have h := wrapAux_join (a :: t) (a :: t) 0 0 0 (by simp) (Nat.le_refl 0)
        (List.cons_ne_nil a t)
      simpa [docWrap] using h
    · exact wrapAux_mem_ne_nil (a :: t) (a :: t) 0 0 0 (by simp) (Nat.le_refl 0)
        (by omega)

/-- Witness for C4 at a concrete 100-character description. -/
theorem docWrap_word_respecting_witness :
    joinWithSpace (docWrap (("Given an array of ints, return True if the array contains a 2 next to a 2 somewhere in the array.").data)) =
      ("Given an array of ints, return True if the array contains a 2 next to a 2 somewhere in the array.").data ∧
    ∀ l ∈ docWrap (("Given an array of ints, return True if the array contains a 2 next to a 2 somewhere in the array.").data), l ≠ [] :=
  docWrap_word_respecting (("Given an array of ints, return True if the array contains a 2 next to a 2 somewhere in the array.").data)

theorem writeProblem_error_eq (catName : List Char) (p : Problem) (e : WriteError)
    (h : writeProblem catName p = Except.error e) : e = WriteError.typeError := by
  cases hp : p.text with
  | none => simp [writeProblem, hp] at h; exact h.symm
  | some t => simp [writeProblem, hp] at h

theorem writeAll_no_processing (catName : List Char) :
    ∀ (ps : List Problem) (msg : List Char),
      writeAll catName ps ≠ Except.error (WriteError.processingError msg) := by
  intro ps
  induction ps with
  | nil => intro msg h; simp [writeAll] at h
  | cons p t ih =>
    intro msg h
    cases hw : writeProblem catName p with
    | error e =>
      have he := writeProblem_error_eq catName p e hw
      rw [writeAll, hw, he] at h
      simp at h
    | ok w =>
      cases hrest : writeAll catName t with
      | error e2 =>
        rw [writeAll, hw, hrest] at h
        simp at h
        exact ih msg (by rw [hrest, h])
      | ok ws =>
        rw [writeAll, hw, hrest] at h
        simp at h

/-- C9: `CategoryPage.write` raises `ProcessingError` exactly when the
category's `processed` flag is false, and then performs no file write (the
error return carries no write, and the raise precedes the write loop); a
processed category never raises `ProcessingError` (its write loop can only
raise the `TypeError` of writing an unset text). -/
theorem write_processing_error_iff (cp : CategoryPage) :
    (∃ msg, cp.write = Except.error (WriteError.processingError msg)) ↔
      cp.processed = false := by
  constructor
  · rintro ⟨msg, h⟩
    cases hp : cp.processed with
    | false => rfl
    | true =>
      exfalso
      rw [CategoryPage.write, hp] at h
      simp at h
      exact writeAll_no_processing cp.name cp.problems msg h
  · intro h
    refine ⟨cp.name ++ (" has not been processed").data, ?_⟩
    simp [CategoryPage.write, h]

/-- Witness for C9 at a concrete unprocessed category. -/
theorem write_processing_error_iff_witness :
    (∃ msg, ({ url := [], name := [], problems := [], processed := false } :
        CategoryPage).write = Except.error (WriteError.processingError msg)) ↔
      ({ url := [], name := [], problems := [], processed := false } :
        CategoryPage).processed = false :=
  write_processing_error_iff
    ({ url := [], name := [], problems := [], processed := false } : CategoryPage)

end Codingbat
